import Mathlib

/-
  Verification development for the cockpit-coder relay (Go).

  Shallow embedding of the relay's components:
  a ring buffer of replayable JSON frames (relay/internal/relay/hub.go, Ring),
  a token-bucket rate limiter (relay/internal/relay/rate.go, RateLimiter),
  the session hub (relay/internal/relay/hub.go, Hub),
  the auth claims round trip (relay auth.go, NewClaims / VerifyToken),
  and the per-session actor (relay/internal/relay/session_actor.go).

  Machine integers are modelled as Int/Nat; Go float64 token arithmetic is
  modelled over the rationals; byte slices are lists of Nat.
-/

namespace CockpitRelay

/-- Byte strings: a Go byte slice is a list of byte values. -/
abbrev Bytes := List Nat

/-- UTF-8 encoding of one character, as the Go string-to-bytes conversion does. -/
def charUtf8 (c : Char) : Bytes :=
  let n := c.toNat
  if n < 128 then [n]
  else if n < 2048 then [192 + n / 64, 128 + n % 64]
  else if n < 65536 then [224 + n / 4096, 128 + (n / 64) % 64, 128 + n % 64]
  else [240 + n / 262144, 128 + (n / 4096) % 64, 128 + (n / 64) % 64, 128 + n % 64]

/-- Bytes of a Go string (UTF-8). -/
def strBytes (s : String) : Bytes :=
  (s.data.map charUtf8).flatten

/-- One retained ring entry: Frame in hub.go (Seq, Data). -/
structure Frame where
  seq : Nat
  data : Bytes
deriving DecidableEq

/-- The bounded replay ring of hub.go: capacity, running byte total, entries. -/
structure Ring where
  capacity : Int
  total : Int
  frames : List Frame
deriving DecidableEq

/-- NewRing from hub.go. -/
def NewRing (capacity : Int) : Ring :=
  { capacity := capacity, total := 0, frames := [] }

/-- The head-eviction loop in Ring.Push: drop oldest entries while the ring is
nonempty and the running total plus the incoming length exceeds capacity. -/
def evictWhile (capacity dlen : Int) : Int → List Frame → Int × List Frame
  | total, [] => (total, [])
  | total, old :: rest =>
    if capacity < total + dlen then
      evictWhile capacity dlen (total - (old.data.length : Int)) rest
    else
      (total, old :: rest)

/-- Ring.Push from hub.go: evict from the head while the new entry does not fit,
then append a copy of the data and add its length to the total. -/
def Ring.Push (r : Ring) (seq : Nat) (data : Bytes) : Ring :=
  let p := evictWhile r.capacity ((data.length : Int)) r.total r.frames
  { capacity := r.capacity
    total := p.1 + (data.length : Int)
    frames := p.2 ++ [{ seq := seq, data := data }] }

/-- Ring.ReplayFrom from hub.go: the payload copies of all retained entries with
seq strictly greater than the argument, in retained order. In this value
semantics the per-element copy made by the Go code is the identity. -/
def Ring.ReplayFrom (r : Ring) (seq : Nat) : List Bytes :=
  (r.frames.filter (fun f => decide (seq < f.seq))).map (fun f => f.data)

/-- Total retained payload bytes of a list of frames. -/
def sumLen (fs : List Frame) : Int :=
  (fs.map (fun f => (f.data.length : Int))).sum

/-- The ring's bookkeeping invariant: the running total equals the retained bytes. -/
def Ring.wf (r : Ring) : Prop := r.total = sumLen r.frames

/-- Entries ordered by seq strictly ascending. -/
def SeqSorted (fs : List Frame) : Prop :=
  List.Pairwise (fun a b => a.seq < b.seq) fs

instance (r : Ring) : Decidable r.wf :=
  inferInstanceAs (Decidable (r.total = sumLen r.frames))

instance (fs : List Frame) : Decidable (SeqSorted fs) :=
  inferInstanceAs (Decidable (List.Pairwise (fun a b : Frame => a.seq < b.seq) fs))

lemma sumLen_nil : sumLen [] = 0 := rfl

lemma sumLen_cons (f : Frame) (fs : List Frame) :
    sumLen (f :: fs) = (f.data.length : Int) + sumLen fs := by
  simp [sumLen]

lemma evictWhile_suffix (capacity dlen : Int) :
    ∀ (fs : List Frame) (total : Int),
      (evictWhile capacity dlen total fs).2 <:+ fs := by
  intro fs
  induction fs with
  | nil => intro total; simp [evictWhile]
  | cons old rest ih =>
    intro total
    by_cases h : capacity < total + dlen
    · simpa [evictWhile, h] using
        (ih (total - (old.data.length : Int))).trans (List.suffix_cons old rest)
    · simp [evictWhile, h]

lemma evictWhile_total (capacity dlen : Int) :
    ∀ (fs : List Frame),
      (evictWhile capacity dlen (sumLen fs) fs).1
        = sumLen (evictWhile capacity dlen (sumLen fs) fs).2 := by
  intro fs
  induction fs with
  | nil => simp [evictWhile, sumLen_nil]
  | cons old rest ih =>
    by_cases h : capacity < sumLen (old :: rest) + dlen
    · have harith : sumLen (old :: rest) - (old.data.length : Int) = sumLen rest := by
        rw [sumLen_cons]; ring
      simp only [evictWhile, h, if_pos, harith]
      simpa [harith] using ih
    · simp [evictWhile, h]

lemma evictWhile_bound (capacity dlen : Int) :
    ∀ (fs : List Frame) (total : Int),
      (evictWhile capacity dlen total fs).1 + dlen ≤ capacity ∨
        (evictWhile capacity dlen total fs).2 = [] := by
  intro fs
  induction fs with
  | nil => intro total; simp [evictWhile]
  | cons old rest ih =>
    intro total
    by_cases h : capacity < total + dlen
    · simpa [evictWhile, h] using ih (total - (old.data.length : Int))
    · left
      simpa [evictWhile, h] using le_of_not_lt h

lemma Push_frames (r : Ring) (s : Nat) (d : Bytes) :
    (r.Push s d).frames
      = (evictWhile r.capacity ((d.length : Int)) r.total r.frames).2
          ++ [{ seq := s, data := d }] := rfl

lemma Push_total (r : Ring) (s : Nat) (d : Bytes) :
    (r.Push s d).total
      = (evictWhile r.capacity ((d.length : Int)) r.total r.frames).1
          + (d.length : Int) := rfl

lemma Push_cap (r : Ring) (s : Nat) (d : Bytes) :
    (r.Push s d).capacity = r.capacity := rfl

lemma sumLen_append (xs ys : List Frame) :
    sumLen (xs ++ ys) = sumLen xs + sumLen ys := by
  simp [sumLen]

/-- C5: after any Push, the retained bytes fit the capacity, except that the
most recently pushed entry may alone exceed it, in which case it is the only
retained entry and the next Push evicts it; Push keeps the running-total
invariant, and keeps entries ordered by seq ascending when the pushed seq is
larger than all retained seqs. -/
theorem Push_capacity_and_order (r : Ring) (s : Nat) (d : Bytes)
    (hwf : r.wf) (hsorted : SeqSorted r.frames)
    (hmono : ∀ f ∈ r.frames, f.seq < s) :
    (r.Push s d).wf ∧
    (sumLen (r.Push s d).frames ≤ r.capacity ∨
      (r.Push s d).frames = [{ seq := s, data := d }]) ∧
    SeqSorted (r.Push s d).frames ∧
    (r.capacity < (r.Push s d).total →
      ∀ (s2 : Nat) (d2 : Bytes),
        ((r.Push s d).Push s2 d2).frames = [{ seq := s2, data := d2 }]) := by
  have hwf' : r.total = sumLen r.frames := hwf
  have htot : (evictWhile r.capacity ((d.length : Int)) r.total r.frames).1
      = sumLen (evictWhile r.capacity ((d.length : Int)) r.total r.frames).2 := by
    rw [hwf']; exact evictWhile_total r.capacity ((d.length : Int)) r.frames
  have hsuf := evictWhile_suffix r.capacity ((d.length : Int)) r.frames r.total
  have hbnd := evictWhile_bound r.capacity ((d.length : Int)) r.frames r.total
  have hwfPush : (r.Push s d).wf := by
    show (r.Push s d).total = sumLen (r.Push s d).frames
    rw [Push_total, Push_frames, sumLen_append, htot]
    simp [sumLen]
  refine ⟨hwfPush, ?_, ?_, ?_⟩
  · rcases hbnd with h | h
    · left
      have : sumLen (r.Push s d).frames = (r.Push s d).total := (hwfPush).symm
      rw [this, Push_total]
      exact h
    · right
      rw [Push_frames, h]
      rfl
  · rw [Push_frames]
    refine (List.pairwise_append).mpr ⟨?_, ?_, ?_⟩
    · exact hsorted.sublist hsuf.sublist
    · simp [List.pairwise_singleton]
    · intro a ha b hb
      have hb' : b = { seq := s, data := d } := by simpa using hb
      have ha' : a ∈ r.frames := hsuf.sublist.subset ha
      rw [hb']
      exact hmono a ha'
  · intro hover s2 d2
    have hframes1 : (r.Push s d).frames = [{ seq := s, data := d }] := by
      rcases hbnd with h | h
      · exfalso
        rw [Push_total] at hover
        omega
      · rw [Push_frames, h]
        rfl
    have hd2 : (0:Int) ≤ (d2.length : Int) := Int.natCast_nonneg _
    have hcond : (r.Push s d).capacity
        < (r.Push s d).total + (d2.length : Int) := by
      rw [Push_cap]
      have := hover
      omega
    rw [Push_frames, hframes1]
    simp [evictWhile, hcond]

/-- Concrete well-formed sorted ring used to instantiate ring theorems. -/
def exRing5 : Ring :=
  { capacity := 100, total := 4
    frames := [{ seq := 1, data := [1, 2] }, { seq := 2, data := [3, 4] }] }

/-- Witness for C5 at a concrete ring and push. -/
theorem Push_capacity_and_order_witness :
    (exRing5.Push 3 [5]).wf ∧
    (sumLen (exRing5.Push 3 [5]).frames ≤ exRing5.capacity ∨
      (exRing5.Push 3 [5]).frames = [{ seq := 3, data := [5] }]) ∧
    SeqSorted (exRing5.Push 3 [5]).frames ∧
    (exRing5.capacity < (exRing5.Push 3 [5]).total →
      ∀ (s2 : Nat) (d2 : Bytes),
        ((exRing5.Push 3 [5]).Push s2 d2).frames = [{ seq := s2, data := d2 }]) :=
  Push_capacity_and_order exRing5 3 [5] (by decide) (by decide) (by decide)

lemma filter_gt_suffix_of_sorted (s : Nat) :
    ∀ fs : List Frame, SeqSorted fs →
      (fs.filter (fun f => decide (s < f.seq))) <:+ fs := by
  intro fs
  induction fs with
  | nil => intro h; simp
  | cons f rest ih =>
    intro hs
    rcases List.pairwise_cons.mp hs with ⟨hf, hrest⟩
    by_cases h : s < f.seq
    · have hall : rest.filter (fun g => decide (s < g.seq)) = rest := by
        rw [List.filter_eq_self]
        intro g hg
        exact decide_eq_true (lt_trans h (hf g hg))
      simp [List.filter_cons, h, hall]
    · have heq : (f :: rest).filter (fun g => decide (s < g.seq))
          = rest.filter (fun g => decide (s < g.seq)) := by
        simp [List.filter_cons, h]
      rw [heq]
      exact (ih hrest).trans (List.suffix_cons f rest)

/-- C6: on a seq-sorted ring, ReplayFrom returns exactly the payloads of the
retained entries with seq greater than the argument: those entries form a
suffix of the ring, are themselves sorted ascending, and all lie strictly
above the requested seq. The payload copies made by the Go code are the
identity under value semantics, so the returned list is exactly their data. -/
theorem ReplayFrom_suffix_ordered (r : Ring) (s : Nat)
    (hsorted : SeqSorted r.frames) :
    ∃ fs : List Frame,
      fs <:+ r.frames ∧
      r.ReplayFrom s = fs.map (fun f => f.data) ∧
      SeqSorted fs ∧
      ∀ f ∈ fs, s < f.seq := by
  refine ⟨r.frames.filter (fun f => decide (s < f.seq)), ?_, rfl, ?_, ?_⟩
  · exact filter_gt_suffix_of_sorted s r.frames hsorted
  · exact hsorted.filter _
  · intro f hf
    have := (List.mem_filter.mp hf).2
    simpa using this

/-- Witness for C6 at a concrete sorted ring. -/
theorem ReplayFrom_suffix_ordered_witness :
    ∃ fs : List Frame,
      fs <:+ exRing5.frames ∧
      exRing5.ReplayFrom 1 = fs.map (fun f => f.data) ∧
      SeqSorted fs ∧
      ∀ f ∈ fs, 1 < f.seq :=
  ReplayFrom_suffix_ordered exRing5 1 (by decide)

/-- The token bucket of rate.go: tokens, capacity and refill rate are Go
float64 values, modelled over the rationals. The lastRefill timestamp is
represented by passing the elapsed seconds into Allow explicitly. -/
structure RateLimiter where
  tokens : ℚ
  maxTokens : ℚ
  refillRate : ℚ
deriving DecidableEq

/-- NewRateLimiter from rate.go: a full bucket of one second of budget. -/
def NewRateLimiter (bytesPerSec : Nat) : RateLimiter :=
  { tokens := (bytesPerSec : ℚ)
    maxTokens := (bytesPerSec : ℚ)
    refillRate := (bytesPerSec : ℚ) }

/-- RateLimiter.Allow from rate.go: add elapsed times refillRate to the tokens,
cap at maxTokens, then deduct n and return true if at least n tokens are held,
else return false. The Go method mutates the bucket; here the updated bucket is
returned alongside the decision. -/
def RateLimiter.Allow (rl : RateLimiter) (elapsed : ℚ) (n : Nat) :
    Bool × RateLimiter :=
  let added := elapsed * rl.refillRate
  let t1 := rl.tokens + added
  let t2 := if rl.maxTokens < t1 then rl.maxTokens else t1
  if (n : ℚ) ≤ t2 then
    (true, { rl with tokens := t2 - (n : ℚ) })
  else
    (false, { rl with tokens := t2 })

/-- C4 (amended): Allow refills by elapsed times rate — applied as written in
the code, with no clamping of negative elapsed — caps at capacity, then deducts
n exactly when at least n tokens are available (returning true), else returns
false and leaves the token count unchanged by the deduction step; capacity and
rate are untouched. -/
theorem Allow_refill_cap_deduct (rl : RateLimiter) (elapsed : ℚ) (n : Nat) :
    ((rl.Allow elapsed n).1
        = decide ((n : ℚ) ≤ min (rl.tokens + elapsed * rl.refillRate) rl.maxTokens)) ∧
    ((rl.Allow elapsed n).2.tokens
        = (if (n : ℚ) ≤ min (rl.tokens + elapsed * rl.refillRate) rl.maxTokens
            then min (rl.tokens + elapsed * rl.refillRate) rl.maxTokens - (n : ℚ)
            else min (rl.tokens + elapsed * rl.refillRate) rl.maxTokens)) ∧
    (rl.Allow elapsed n).2.maxTokens = rl.maxTokens ∧
    (rl.Allow elapsed n).2.refillRate = rl.refillRate := by
  have hmin : (if rl.maxTokens < rl.tokens + elapsed * rl.refillRate
      then rl.maxTokens else rl.tokens + elapsed * rl.refillRate)
      = min (rl.tokens + elapsed * rl.refillRate) rl.maxTokens := by
    rcases le_or_lt (rl.tokens + elapsed * rl.refillRate) rl.maxTokens with h | h
    · rw [if_neg (not_lt.mpr h), min_eq_left h]
    · rw [if_pos h, min_eq_right h.le]
  by_cases hc : (n : ℚ) ≤ min (rl.tokens + elapsed * rl.refillRate) rl.maxTokens
  · simp [RateLimiter.Allow, hmin, hc]
  · simp [RateLimiter.Allow, hmin, hc]

/-- C4 counterexample: wall-clock regression (negative elapsed) is not treated
as zero elapsed. On a fresh 10 byte-per-second bucket, Allow with elapsed -1
denies a 5-byte request that Allow with elapsed 0 grants, and the resulting
bucket states differ: the negative elapsed drains the bucket. -/
theorem Allow_negative_elapsed_counterexample :
    (RateLimiter.Allow (NewRateLimiter 10) (-1) 5).1 = false ∧
    (RateLimiter.Allow (NewRateLimiter 10) (-1) 5).2.tokens = 0 ∧
    (RateLimiter.Allow (NewRateLimiter 10) 0 5).1 = true ∧
    (RateLimiter.Allow (NewRateLimiter 10) 0 5).2.tokens = 5 := by
  norm_num [RateLimiter.Allow, NewRateLimiter]

/-- Signing method of a token: the relay accepts only the HMAC family (HS256). -/
inductive SigMethod
  | hs256
  | other
deriving DecidableEq

/-- Claims from the relay auth source: session id, tenant id, and the
registered expiry claim (Unix seconds; None when absent). -/
structure Claims where
  SID : String
  TID : String
  expiresAt : Option Int
deriving DecidableEq

/-- NewClaims from the relay auth source: claims carrying sid, tid and exp. -/
def NewClaims (sid tid : String) (exp : Int) : Claims :=
  { SID := sid, TID := tid, expiresAt := some exp }

/-- Byte encoding of the expiry claim. -/
def encodeExp : Option Int → Bytes
  | none => []
  | some e => strBytes (toString e)

/-- Byte encoding of the claims envelope carried inside a token. -/
def encodeClaims (c : Claims) : Bytes :=
  strBytes c.SID ++ [0] ++ strBytes c.TID ++ [0] ++ encodeExp c.expiresAt

/-- Modelled from the spec: the HMAC-SHA256 primitive of the jwt library
(third-party, not repository code) is modelled as a deterministic tag over the
secret and message; verification recomputes and compares the tag, which is all
the mint-verify round trip relies on. -/
def macTag (secret msg : Bytes) : Bytes :=
  secret.length :: (secret ++ msg)

/-- A signed token: signing method, claims payload, signature. -/
structure Token where
  method : SigMethod
  claims : Claims
  sig : Bytes
deriving DecidableEq

/-- Modelled from the spec: jwt.NewWithClaims followed by SignedString (the
library-side minting used by the relay and its tests): attach the method and
sign the encoded claims with the secret. -/
def SignedString (secret : Bytes) (method : SigMethod) (c : Claims) : Token :=
  { method := method, claims := c, sig := macTag secret (encodeClaims c) }

def msgUnexpectedMethod : String := "unexpected signing method"

def msgInvalidToken : String := "token is invalid"

def msgTokenExpired : String := "token expired"

/-- VerifyToken from the relay auth source: reject a non-HMAC signing method,
reject a signature that does not match the secret, reject an expiry strictly
before now, and otherwise return the parsed claims. -/
def VerifyToken (secret : Bytes) (tok : Token) (now : Int) : Except String Claims :=
  if tok.method ≠ SigMethod.hs256 then Except.error msgUnexpectedMethod
  else if tok.sig ≠ macTag secret (encodeClaims tok.claims) then
    Except.error msgInvalidToken
  else
    match tok.claims.expiresAt with
    | some e => if e < now then Except.error msgTokenExpired else Except.ok tok.claims
    | none => Except.ok tok.claims

/-- C9: a token minted by building claims with NewClaims and HMAC-signing them,
then immediately verified under the same secret at a time before the expiry,
succeeds and round-trips identically in sessionId, tenantId and expiry. -/
theorem VerifyToken_roundtrip (secret : Bytes) (sid tid : String) (exp now : Int)
    (h : now < exp) :
    VerifyToken secret (SignedString secret SigMethod.hs256 (NewClaims sid tid exp)) now
      = Except.ok { SID := sid, TID := tid, expiresAt := some exp } := by
  have hnotexp : ¬ (exp < now) := not_lt.mpr h.le
  simp [VerifyToken, SignedString, NewClaims, hnotexp]

def exSid : String := "sess_1"

def exTid : String := "t_demo"

/-- Witness for C9 at a concrete secret, identity and expiry. -/
theorem VerifyToken_roundtrip_witness :
    VerifyToken [7, 7] (SignedString [7, 7] SigMethod.hs256 (NewClaims exSid exTid 100)) 0
      = Except.ok { SID := exSid, TID := exTid, expiresAt := some 100 } :=
  VerifyToken_roundtrip [7, 7] exSid exTid 100 0 (by decide)


/-- Frame classification of session_actor.go: a payload is JSON iff it is
nonempty and its first byte is 123, the opening curly brace. The head? test
captures exactly the Go conjunction of a positive length and a first byte
equal to 123, since an empty list has no head. -/
def isJson (p : Bytes) : Bool :=
  decide (p.head? = some 123)

def msgOutOfHistory : String := "out_of_history"

def msgIdleTimeout : String := "idle_timeout"

def msgBinaryFromClient : String := "binary not expected from client"

def msgSessionClosed : String := "session closed"

/-- The relay's JSON err envelope as marshalled bytes; Go's json.Marshal on a
map emits the keys in sorted order: message, sid, t. -/
def errFrame (message sid : String) : Bytes :=
  strBytes ("\x7b\"message\":\"" ++ message ++ "\",\"sid\":\"" ++ sid ++ "\",\"t\":\"err\"\x7d")

/-- The relay's JSON throttle event as marshalled bytes (sorted keys); the
code emits the bucket capacity rate.maxTokens as bps and the current seq. -/
def throttleFrame (bps : ℚ) (sid : String) (seq : Nat) : Bytes :=
  strBytes ("\x7b\"bps\":" ++ toString bps ++ ",\"kind\":\"throttle\",\"seq\":"
    ++ toString seq ++ ",\"sid\":\"" ++ sid ++ "\",\"t\":\"evt\"\x7d")

/-- wsConn from session_actor.go: one peer-slot connection — its pending send
queue and its closed flag. The underlying socket and the read/write pump
goroutines are I/O and are not part of the pure state. -/
structure WsConn where
  send : List Bytes
  closed : Bool
deriving DecidableEq

/-- SessionActor from session_actor.go: identity, the two peer slots (none
when absent, matching the nil pointers), the seq counter, ring, rate limiter,
closed flag and lastActive in milliseconds. The mutex, the timer goroutines
and the redis side-store handle are omitted; the idle timeout duration is
passed to idleCheck explicitly, and wall-clock reads are explicit
parameters. -/
structure SessionActor where
  sid : String
  tid : String
  host : Option WsConn
  client : Option WsConn
  seq : Nat
  ring : Ring
  rate : RateLimiter
  closed : Bool
  lastActive : Int
deriving DecidableEq

/-- NewSessionActor from session_actor.go: seq 0, a fresh ring of the
configured capacity, a full token bucket, no peers, open, lastActive now. -/
def NewSessionActor (sid tid : String) (ringSize : Int) (rateBPS : Nat)
    (now : Int) : SessionActor :=
  { sid := sid, tid := tid
    host := none, client := none
    seq := 0
    ring := NewRing ringSize
    rate := NewRateLimiter rateBPS
    closed := false, lastActive := now }

/-- sendToHost from session_actor.go: enqueue on the host slot only when a
live (non-nil, not closed) host connection is attached; otherwise a no-op. -/
def SessionActor.sendToHost (sa : SessionActor) (msg : Bytes) : SessionActor :=
  match sa.host with
  | some hcon =>
    if hcon.closed then sa
    else { sa with host := some { hcon with send := hcon.send ++ [msg] } }
  | none => sa

/-- processHostToClient from session_actor.go (lines 207-249): lastActive is
refreshed; a JSON payload is dropped outright unless a live client is
attached (lines 215-218), and otherwise gets seq+1, a ring push and the
client-slot enqueue; a binary payload is likewise dropped without a live
client, and otherwise is rate limited — forwarded when allowed, else replaced
by a single throttle event. There is no closed-session gate in this function.
The elapsed refill seconds and the wall-clock milliseconds are explicit
parameters of the pure model. -/
def SessionActor.processHostToClient (sa0 : SessionActor) (elapsed : ℚ)
    (now : Int) (msg : Bytes) : SessionActor :=
  let sa := { sa0 with lastActive := now }
  if isJson msg then
    match sa.client with
    | none => sa
    | some c =>
      if c.closed then sa
      else
        { sa with seq := sa.seq + 1
                  ring := sa.ring.Push (sa.seq + 1) msg
                  client := some { c with send := c.send ++ [msg] } }
  else
    match sa.client with
    | none => sa
    | some c =>
      if c.closed then sa
      else
        let p := sa.rate.Allow elapsed msg.length
        if p.1 then
          { sa with rate := p.2
                    client := some { c with send := c.send ++ [msg] } }
        else
          { sa with rate := p.2
                    client := some { c with send := c.send
                      ++ [throttleFrame sa.rate.maxTokens sa.sid sa.seq] } }

/-- processClientToHost from session_actor.go (lines 251-272): lastActive is
refreshed; a nonempty payload whose first byte is not the curly brace is a
protocol violation — the err envelope goes to the host and the frame is
dropped; every other payload, the empty payload included, takes the JSON
path: seq+1, ring push, forward to the host. There is no closed-session gate
and no client-slot requirement in this function. -/
def SessionActor.processClientToHost (sa0 : SessionActor) (now : Int)
    (msg : Bytes) : SessionActor :=
  let sa := { sa0 with lastActive := now }
  if !msg.isEmpty && !(isJson msg) then
    sa.sendToHost (errFrame msgBinaryFromClient sa.sid)
  else
    ({ sa with seq := sa.seq + 1
               ring := sa.ring.Push (sa.seq + 1) msg }).sendToHost msg

/-- AttachHost from session_actor.go (lines 109-146): a closed session is
rejected with an error and nothing is installed; otherwise the host slot is
(re)installed with a fresh empty send queue — a prior host connection is
closed and replaced, last write wins. The pump goroutines are I/O. -/
def SessionActor.AttachHost (sa : SessionActor) : Except String SessionActor :=
  if sa.closed then Except.error msgSessionClosed
  else Except.ok { sa with host := some { send := [], closed := false } }

/-- AttachClient from session_actor.go (lines 148-205): a closed session is
rejected with an error and nothing is installed; otherwise the client slot is
(re)installed, and when resumeFrom is positive the new send queue is seeded
with ReplayFrom resumeFrom — or with the single out_of_history err envelope
whenever that replay list is empty; the code performs no oldest-retained-seq
eviction check. -/
def SessionActor.AttachClient (sa : SessionActor) (resumeFrom : Nat) :
    Except String SessionActor :=
  if sa.closed then Except.error msgSessionClosed
  else
    let send0 : List Bytes :=
      if 0 < resumeFrom then
        if (sa.ring.ReplayFrom resumeFrom).isEmpty then
          [errFrame msgOutOfHistory sa.sid]
        else sa.ring.ReplayFrom resumeFrom
      else []
    Except.ok { sa with client := some { send := send0, closed := false } }

/-- Close from session_actor.go (lines 286-320): idempotent; on the first
call the reason's err envelope is enqueued to each non-nil slot, both
connections are closed, and the session is marked CLOSED. Only the actor is
touched: no hub interaction happens here. The redis metadata write is I/O. -/
def SessionActor.Close (sa : SessionActor) (reason : String) : SessionActor :=
  if sa.closed then sa
  else
    { sa with
      closed := true
      host :=
        match sa.host with
        | some hcon =>
          some { hcon with send := hcon.send ++ [errFrame reason sa.sid], closed := true }
        | none => none
      client :=
        match sa.client with
        | some c =>
          some { c with send := c.send ++ [errFrame reason sa.sid], closed := true }
        | none => none }

/-- One firing of the idleTimer loop of session_actor.go (lines 322-334): on
a still-open session whose now minus lastActive (milliseconds) exceeds the
idle timeout, the actor closes itself with reason idle_timeout. The timer
calls the actor's own Close directly; it never goes through the hub. -/
def SessionActor.idleCheck (sa : SessionActor) (now idleTO : Int) : SessionActor :=
  if sa.closed then sa
  else if idleTO < now - sa.lastActive then sa.Close msgIdleTimeout
  else sa

/-- The hub of hub.go: the session registry plus the active_sessions gauge,
carried in the state in place of the Prometheus counter. -/
structure Hub where
  sessions : List (String × SessionActor)
  activeSessions : Int
deriving DecidableEq

/-- Hub.GetOrCreate from hub.go: return the existing actor for sid unchanged,
or insert a freshly created one and increment the active_sessions gauge. -/
def Hub.GetOrCreate (h : Hub) (sid tid : String) (ringSize : Int)
    (rateBPS : Nat) (now : Int) : SessionActor × Hub :=
  match h.sessions.lookup sid with
  | some sa => (sa, h)
  | none =>
    let sa := NewSessionActor sid tid ringSize rateBPS now
    (sa, { sessions := (sid, sa) :: h.sessions
           activeSessions := h.activeSessions + 1 })

/-- Hub.Close from hub.go: delete the entry, and when it existed close the
actor with the reason and decrement the gauge. This function exists in the
source but is never invoked on the idle-timeout path. -/
def Hub.Close (h : Hub) (sid reason : String) : Hub × Option SessionActor :=
  match h.sessions.lookup sid with
  | some sa =>
    ({ sessions := h.sessions.filter (fun p => !(p.1 == sid))
       activeSessions := h.activeSessions - 1 }, some (sa.Close reason))
  | none =>
    ({ sessions := h.sessions.filter (fun p => !(p.1 == sid))
       activeSessions := h.activeSessions }, none)

/-- The hub's map stores a pointer to the session actor, so a change the
actor makes to itself is observable through the unchanged hub entry; rendered
over values, an actor-local step rewrites the entry in place, leaving the key
set and the gauge untouched. -/
def hubActorStep (h : Hub) (sid : String) (step : SessionActor → SessionActor) : Hub :=
  { h with sessions := h.sessions.map (fun q => if q.1 == sid then (q.1, step q.2) else q) }

deriving instance DecidableEq for Except

/-- Concrete open actor with a live host slot and no client. -/
def exHostOnlyActor : SessionActor :=
  { NewSessionActor exSid exTid 100 10 0 with
    host := some { send := [], closed := false } }

/-- Concrete open actor with both slots live. -/
def exAttachedActor : SessionActor :=
  { NewSessionActor exSid exTid 100 10 0 with
    host := some { send := [], closed := false }
    client := some { send := [], closed := false } }

/-- C1 (code bug): per session_actor.go:215-218 a JSON host frame on an open
session is dropped when no live client is attached — no seq is assigned,
nothing is pushed to the ring, the frame is not retrievable — refuting the
claim's independence from client attachment; with a live client attached the
same frame does get seq+1, the ring push and the client-egress enqueue, as
the claim describes. -/
theorem host_json_dropped_without_client :
    isJson [123, 65] = true ∧
    exHostOnlyActor.closed = false ∧
    exHostOnlyActor.client = none ∧
    (exHostOnlyActor.processHostToClient 0 5 [123, 65]).seq = exHostOnlyActor.seq ∧
    (exHostOnlyActor.processHostToClient 0 5 [123, 65]).ring.frames = [] ∧
    (exHostOnlyActor.processHostToClient 0 5 [123, 65]).ring.ReplayFrom 0 = [] ∧
    (exAttachedActor.processHostToClient 0 5 [123, 65]).seq = exAttachedActor.seq + 1 ∧
    (exAttachedActor.processHostToClient 0 5 [123, 65]).ring.ReplayFrom 0 = [[123, 65]] ∧
    (exAttachedActor.processHostToClient 0 5 [123, 65]).client
      = some { send := [[123, 65]], closed := false } := by
  decide

/-- Concrete open actor holding the sorted two-entry ring. -/
def exRingActor : SessionActor :=
  { NewSessionActor exSid exTid 100 10 0 with ring := exRing5 }

/-- C2 counterexample: seq 2 is the highest retained seq of the concrete
ring, its replay from 2 is empty, and the real AttachClient — which tests
only emptiness of the replay list — seeds the new client queue with the
out_of_history err envelope, where the claim promises no error. -/
theorem resume_highest_counterexample :
    exRingActor.ring.ReplayFrom 2 = [] ∧
    ({ seq := 2, data := [3, 4] } : Frame) ∈ exRingActor.ring.frames ∧
    (∀ f ∈ exRingActor.ring.frames, f.seq ≤ 2) ∧
    exRingActor.AttachClient 2
      = Except.ok { exRingActor with
          client := some { send := [errFrame msgOutOfHistory exRingActor.sid]
                           closed := false } } := by
  decide

/-- C2 (amended): on an open session and a positive resumeSeq, AttachClient
enqueues the out_of_history err envelope exactly when the replay list is
empty — the code has no oldest-retained-seq eviction check — and otherwise
seeds the client queue with the replayed frames, in order, before any new
traffic. -/
theorem AttachClient_empty_replay (sa : SessionActor) (r : Nat)
    (hopen : sa.closed = false) (hr : 0 < r) :
    (sa.ring.ReplayFrom r = [] →
      sa.AttachClient r = Except.ok { sa with
        client := some { send := [errFrame msgOutOfHistory sa.sid], closed := false } }) ∧
    (sa.ring.ReplayFrom r ≠ [] →
      sa.AttachClient r = Except.ok { sa with
        client := some { send := sa.ring.ReplayFrom r, closed := false } }) := by
  constructor
  · intro he
    simp [SessionActor.AttachClient, hopen, hr, he]
  · intro he
    have hie : (sa.ring.ReplayFrom r).isEmpty = false := by
      cases hie : (sa.ring.ReplayFrom r).isEmpty
      · rfl
      · exact absurd (List.isEmpty_iff.mp hie) he
    simp [SessionActor.AttachClient, hopen, hr, hie]

/-- Witness for C2's amended statement: resuming from seq 1 on the concrete
ring replays the one later retained frame. -/
theorem AttachClient_empty_replay_witness :
    (exRingActor.ring.ReplayFrom 1 = [] →
      exRingActor.AttachClient 1 = Except.ok { exRingActor with
        client := some { send := [errFrame msgOutOfHistory exRingActor.sid]
                         closed := false } }) ∧
    (exRingActor.ring.ReplayFrom 1 ≠ [] →
      exRingActor.AttachClient 1 = Except.ok { exRingActor with
        client := some { send := exRingActor.ring.ReplayFrom 1, closed := false } }) :=
  AttachClient_empty_replay exRingActor 1 (by decide) (by decide)

/-- Concrete one-session hub holding the doubly-attached open actor. -/
def exHubA : Hub :=
  { sessions := [(exSid, exAttachedActor)], activeSessions := 1 }

/-- C3 (code bug): when the idle timeout fires, the actor closes itself with
reason idle_timeout — both attached peers get the err envelope and both slots
close — but the timer calls the actor's Close directly and Hub.Close is never
invoked: the hub still lists the sessionId, now bound to a closed actor, and
active_sessions is not decremented, so the gauge no longer equals the live
entries of the hub map. -/
theorem idle_timeout_divergence :
    (exAttachedActor.idleCheck 5000 1).closed = true ∧
    (exAttachedActor.idleCheck 5000 1).host
      = some { send := [errFrame msgIdleTimeout exSid], closed := true } ∧
    (exAttachedActor.idleCheck 5000 1).client
      = some { send := [errFrame msgIdleTimeout exSid], closed := true } ∧
    (hubActorStep exHubA exSid (fun sa => sa.idleCheck 5000 1)).sessions.lookup exSid
      = some (exAttachedActor.idleCheck 5000 1) ∧
    (hubActorStep exHubA exSid (fun sa => sa.idleCheck 5000 1)).sessions.lookup exSid
      ≠ none ∧
    (hubActorStep exHubA exSid (fun sa => sa.idleCheck 5000 1)).activeSessions
      = exHubA.activeSessions := by
  decide

/-- Whether the client slot holds a live connection: the Go guard
client != nil && !client.closed, under which forwarding proceeds. -/
def clientLive (sa : SessionActor) : Bool :=
  match sa.client with
  | some c => !c.closed
  | none => false

/-- Direction of one forwarded frame. -/
inductive Dir
  | h2c
  | c2h
deriving DecidableEq

/-- One incoming frame event: direction, refill seconds, timestamp, payload. -/
structure Ev where
  dir : Dir
  elapsed : ℚ
  now : Int
  payload : Bytes
deriving DecidableEq

/-- Process one incoming frame in its direction. -/
def stepEv (sa : SessionActor) (e : Ev) : SessionActor :=
  match e.dir with
  | Dir.h2c => sa.processHostToClient e.elapsed e.now e.payload
  | Dir.c2h => sa.processClientToHost e.now e.payload

/-- Exactly the frames the code assigns a seq to: host-to-client JSON frames
while a live client is attached, and client-to-host frames that are not
nonempty-non-JSON (so JSON frames and the empty payload). -/
def seqAssignedEv (sa : SessionActor) (e : Ev) : Bool :=
  match e.dir with
  | Dir.h2c => isJson e.payload && clientLive sa
  | Dir.c2h => !(!e.payload.isEmpty && !(isJson e.payload))

/-- The seq values the code assigns over a run of frames, in arrival order. -/
def assignedSeqs (sa : SessionActor) : List Ev → List Nat
  | [] => []
  | e :: rest =>
    (if seqAssignedEv sa e then [sa.seq + 1] else []) ++ assignedSeqs (stepEv sa e) rest

lemma processHostToClient_seq (sa : SessionActor) (el : ℚ) (now : Int) (p : Bytes) :
    (sa.processHostToClient el now p).seq
      = if isJson p && clientLive sa then sa.seq + 1 else sa.seq := by
  rcases hcl : sa.client with _ | c
  · cases hj : isJson p <;>
      simp [SessionActor.processHostToClient, clientLive, hj, hcl]
  · cases hj : isJson p <;> cases hcc : c.closed <;>
      simp [SessionActor.processHostToClient, clientLive, hj, hcl, hcc, apply_ite]

lemma processClientToHost_seq (sa : SessionActor) (now : Int) (p : Bytes) :
    (sa.processClientToHost now p).seq
      = if !p.isEmpty && !(isJson p) then sa.seq else sa.seq + 1 := by
  cases hb : (!p.isEmpty && !(isJson p))
  · rcases hh : sa.host with _ | hcon
    · simp [SessionActor.processClientToHost, SessionActor.sendToHost, hb, hh]
    · cases hhc : hcon.closed <;>
        simp [SessionActor.processClientToHost, SessionActor.sendToHost, hb, hh, hhc]
  · rcases hh : sa.host with _ | hcon
    · simp [SessionActor.processClientToHost, SessionActor.sendToHost, hb, hh]
    · cases hhc : hcon.closed <;>
        simp [SessionActor.processClientToHost, SessionActor.sendToHost, hb, hh, hhc]

lemma stepEv_seq (sa : SessionActor) (e : Ev) :
    (stepEv sa e).seq = if seqAssignedEv sa e then sa.seq + 1 else sa.seq := by
  rcases e with ⟨d, el, now, p⟩
  cases d
  · simpa [stepEv, seqAssignedEv] using processHostToClient_seq sa el now p
  · cases hb : (!p.isEmpty && !(isJson p)) <;>
      simp [stepEv, seqAssignedEv, processClientToHost_seq, hb]

lemma stepEv_seq_mono (sa : SessionActor) (e : Ev) : sa.seq ≤ (stepEv sa e).seq := by
  rw [stepEv_seq]
  split <;> omega

lemma stepEv_seq_assigned (sa : SessionActor) (e : Ev)
    (h : seqAssignedEv sa e = true) : (stepEv sa e).seq = sa.seq + 1 := by
  rw [stepEv_seq, if_pos h]

lemma assignedSeqs_gt : ∀ (evs : List Ev) (sa : SessionActor),
    ∀ x ∈ assignedSeqs sa evs, sa.seq < x := by
  intro evs
  induction evs with
  | nil => intro sa x hx; simp [assignedSeqs] at hx
  | cons e rest ih =>
    intro sa x hx
    simp only [assignedSeqs, List.mem_append] at hx
    rcases hx with hx | hx
    · by_cases h : seqAssignedEv sa e
      · simp [h] at hx
        omega
      · simp [h] at hx
    · have h1 := ih (stepEv sa e) x hx
      have h2 := stepEv_seq_mono sa e
      omega

/-- C7: over any run of incoming frames in either direction, the seq values
the code assigns — to host-to-client JSON frames with a live client, and to
client-to-host frames on the JSON path — are strictly increasing, and each is
strictly greater than every seq the session had already used. -/
theorem seq_strictly_monotonic (sa : SessionActor) (evs : List Ev) :
    List.Pairwise (fun a b => a < b) (assignedSeqs sa evs) ∧
    ∀ x ∈ assignedSeqs sa evs, sa.seq < x := by
  refine ⟨?_, assignedSeqs_gt evs sa⟩
  induction evs generalizing sa with
  | nil => simp [assignedSeqs]
  | cons e rest ih =>
    simp only [assignedSeqs]
    by_cases h : seqAssignedEv sa e
    · simp only [h, if_pos, List.singleton_append]
      refine List.pairwise_cons.mpr ⟨?_, ih (stepEv sa e)⟩
      intro x hx
      have h1 := assignedSeqs_gt rest (stepEv sa e) x hx
      have h2 := stepEv_seq_assigned sa e h
      omega
    · simpa [h] using ih (stepEv sa e)

/-- C8 counterexample: per session_actor.go:254 the client-to-host binary
test requires a nonempty payload, so an empty payload from the client takes
the JSON path — it is assigned seq+1, pushed to the ring (where it is then
replayable) and forwarded to the host — contradicting the claim that an empty
payload is classified as binary with no seq and no ring push. -/
theorem empty_payload_counterexample :
    (exHostOnlyActor.processClientToHost 5 []).seq = exHostOnlyActor.seq + 1 ∧
    (exHostOnlyActor.processClientToHost 5 []).ring.frames
      = [{ seq := 1, data := [] }] ∧
    (exHostOnlyActor.processClientToHost 5 []).ring.ReplayFrom 0 = [([] : Bytes)] ∧
    (exHostOnlyActor.processClientToHost 5 []).host
      = some { send := [([] : Bytes)], closed := false } := by
  decide

/-- C8 (amended): host-to-client an empty payload is classified as binary —
no seq, no ring push — and with a live client is forwarded as-is, since the
limiter always grants zero bytes when the refilled balance and the capacity
are nonnegative; client-to-host the binary test also requires a nonempty
payload, so an empty payload takes the JSON path: it is assigned the next
seq, pushed to the ring, and forwarded to a live host. -/
theorem empty_payload_binary (sa : SessionActor) (elapsed : ℚ) (now : Int)
    (c hcon : WsConn)
    (hc : sa.client = some c) (hcc : c.closed = false)
    (h1 : 0 ≤ sa.rate.tokens + elapsed * sa.rate.refillRate)
    (h2 : 0 ≤ sa.rate.maxTokens)
    (hh : sa.host = some hcon) (hhc : hcon.closed = false) :
    isJson [] = false ∧
    (sa.processHostToClient elapsed now []).seq = sa.seq ∧
    (sa.processHostToClient elapsed now []).ring = sa.ring ∧
    (sa.processHostToClient elapsed now []).client
      = some { c with send := c.send ++ [([] : Bytes)] } ∧
    (sa.processClientToHost now []).seq = sa.seq + 1 ∧
    (sa.processClientToHost now []).ring = sa.ring.Push (sa.seq + 1) [] ∧
    (sa.processClientToHost now []).host
      = some { hcon with send := hcon.send ++ [([] : Bytes)] } := by
  have hjson : isJson ([] : Bytes) = false := rfl
  have hallow : (sa.rate.Allow elapsed 0).1 = true := by
    unfold RateLimiter.Allow
    by_cases hlt : sa.rate.maxTokens < sa.rate.tokens + elapsed * sa.rate.refillRate
    · simp [hlt, h2]
    · simp [hlt, h1]
  refine ⟨hjson, ?_, ?_, ?_, ?_, ?_, ?_⟩ <;>
    simp [SessionActor.processHostToClient, SessionActor.processClientToHost,
      SessionActor.sendToHost, hjson, hc, hcc, hh, hhc, hallow]

/-- Witness for C8's amended statement on the doubly-attached fresh actor. -/
theorem empty_payload_binary_witness :
    isJson [] = false ∧
    (exAttachedActor.processHostToClient 0 7 []).seq = exAttachedActor.seq ∧
    (exAttachedActor.processHostToClient 0 7 []).ring = exAttachedActor.ring ∧
    (exAttachedActor.processHostToClient 0 7 []).client
      = some { send := [([] : Bytes)], closed := false } ∧
    (exAttachedActor.processClientToHost 7 []).seq = exAttachedActor.seq + 1 ∧
    (exAttachedActor.processClientToHost 7 []).ring
      = exAttachedActor.ring.Push (exAttachedActor.seq + 1) [] ∧
    (exAttachedActor.processClientToHost 7 []).host
      = some { send := [([] : Bytes)], closed := false } :=
  empty_payload_binary exAttachedActor 0 7
    { send := [], closed := false } { send := [], closed := false }
    rfl rfl
    (by norm_num [exAttachedActor, NewSessionActor, NewRateLimiter])
    (by norm_num [exAttachedActor, NewSessionActor, NewRateLimiter])
    rfl rfl

/-- C10: a closed actor still registered in the hub map can never accept a
new peer: GetOrCreate returns the existing closed actor and leaves the hub
unchanged rather than constructing a fresh one, and both AttachHost and
AttachClient on the closed actor return an error before touching a slot — in
this state-passing model an error means no updated actor state exists, so no
socket is installed and no pumps are started. -/
theorem closed_actor_never_reattached (h : Hub) (sid tid : String)
    (sa : SessionActor) (ringSize : Int) (rateBPS : Nat) (now : Int)
    (hlook : h.sessions.lookup sid = some sa)
    (hc : sa.closed = true) :
    Hub.GetOrCreate h sid tid ringSize rateBPS now = (sa, h) ∧
    sa.AttachHost = Except.error msgSessionClosed ∧
    ∀ r : Nat, sa.AttachClient r = Except.error msgSessionClosed := by
  refine ⟨?_, ?_, ?_⟩
  · simp [Hub.GetOrCreate, hlook]
  · simp [SessionActor.AttachHost, hc]
  · intro r
    simp [SessionActor.AttachClient, hc]

/-- Concrete closed actor and a hub still listing it. -/
def exClosedActor : SessionActor :=
  { NewSessionActor exSid exTid 100 10 0 with closed := true }

def exHubClosed : Hub :=
  { sessions := [(exSid, exClosedActor)], activeSessions := 1 }

/-- Witness for C10 at a concrete hub holding a closed actor. -/
theorem closed_actor_never_reattached_witness :
    Hub.GetOrCreate exHubClosed exSid exTid 100 10 0 = (exClosedActor, exHubClosed) ∧
    exClosedActor.AttachHost = Except.error msgSessionClosed ∧
    (∀ r : Nat, exClosedActor.AttachClient r = Except.error msgSessionClosed) :=
  closed_actor_never_reattached exHubClosed exSid exTid exClosedActor 100 10 0
    (by decide) (by decide)

end CockpitRelay
